import Mathlib

/-!
# Verification of the go-marketo authenticated request pipeline

Shallow embedding of the `marketo` Go package (client.go, error.go, lead.go,
query.go, bulk.go) together with proofs about the request executor
(`do` / `doWithRetry` / `checkToken`), the token refresher (`RefreshToken`),
the error classifier (`handleError`), the query builder (`Query.Values`)
and the lead filter pipeline (`LeadAPI.Filter`).

Machine integers: Go `int` / `time.Duration` are 64-bit two's-complement
values; where an overflow can occur (the `time.Duration(ExpiresIn) *
time.Second` multiplication) we compute modulo 2^64 explicitly.  Instants
(`time.Time`) are modelled as unbounded integers counting nanoseconds.

External JSON decoding (`encoding/json`) is modelled in two layers: the
text-level parse of the body is an `Option Jx` input (with `none` for a body
that is not valid JSON), and the struct-level mapping from a parsed JSON
value into the Go struct is an explicit executable decoder following
`json.Unmarshal` semantics for the relevant struct (object fields matched by
exact tag name, missing fields left at their zero value, unknown fields
ignored, `null` leaving the target unchanged, type mismatches failing).
-/

namespace Marketo

/-- A small JSON value AST; models a parsed `encoding/json` document. -/
inductive Jx where
  | jnull : Jx
  | jbool : Bool → Jx
  | jnum : Int → Jx
  | jstr : String → Jx
  | jarr : List Jx → Jx
  | jobj : List (String × Jx) → Jx
deriving Repr

/-- A (code, message) pair as it appears in the envelope arrays
(`errors`, `warning`) and in `RecordResult.Reasons`; both fields are JSON
strings in the Go struct. -/
structure MErrorPair where
  code : String
  message : String
deriving Repr, DecidableEq

/-- `Response` (client.go): the common Marketo response envelope.
`result` is kept as an uninterpreted payload (`json.RawMessage`); `none`
models a `nil` raw message (the `result` key absent from the body). -/
structure Response where
  requestId : String
  success : Bool
  nextPageToken : String
  moreResult : Bool
  errors : List MErrorPair
  result : Option Jx
  warnings : List MErrorPair
deriving Repr

/-- `AuthToken` (client.go): data decoded from the identity endpoint. -/
structure AuthToken where
  accessToken : String
  tokenType : String
  expiresIn : Int
  scope : String
deriving Repr, DecidableEq

/-- The mutable token state of `Client` (client.go): the fields written by
`RefreshToken` under `authLock`: `auth`, `restRoundTripper.token` and
`tokenExpiresAt`.  `tokenExpiresAt` is nanoseconds on an absolute clock. -/
structure ClientState where
  auth : Option AuthToken
  rtToken : String
  tokenExpiresAt : Int
deriving Repr, DecidableEq

/-- Interpret an unbounded integer as a 64-bit two's-complement value
(Go signed-integer arithmetic wraps). -/
def wrap64 (n : Int) : Int :=
  (n + 2 ^ 63) % 2 ^ 64 - 2 ^ 63

/-- `time.Duration(expiresIn) * time.Second` (client.go, RefreshToken):
a 64-bit multiplication by 10^9 nanoseconds, wrapping on overflow. -/
def expiresInDuration (expiresIn : Int) : Int :=
  wrap64 (expiresIn * 1000000000)

/-- One possible outcome of the identity-endpoint exchange, as seen by
`RefreshToken`: either a transport error before any response, or a reply
with a status code, raw body, and the result of JSON-decoding the body
into `AuthToken` (`none` when the body does not decode). -/
inductive RefreshWire where
  | transportErr : String → RefreshWire
  | reply : Int → String → Option AuthToken → RefreshWire
deriving Repr, DecidableEq

/-- `Client.RefreshToken` (client.go): on a 200 reply whose body decodes, it
publishes — under `authLock` — the new `auth`, the bearer token installed in
the REST round-tripper, and `tokenExpiresAt = time.Now() + ExpiresIn
seconds`; on any failure the stored state is untouched.  `now` is the value
of `time.Now()` at the publish point. -/
def refreshToken (now : Int) (st : ClientState) (w : RefreshWire) :
    ClientState × Except String AuthToken :=
  match w with
  | .transportErr m => (st, .error m)
  | .reply status body parsed =>
    if status ≠ 200 then
      (st, .error ("Authentication error: " ++ toString status ++ " " ++ body))
    else
      match parsed with
      | none => (st, .error "json decode error")
      | some auth =>
        (⟨some auth, auth.accessToken, now + expiresInDuration auth.expiresIn⟩,
         .ok auth)

/-- One possible outcome of a REST transport round trip, as seen by
`Client.do`: either a transport error, or a reply with status code, raw
body, and the result of `json.Unmarshal`-ing the body into `Response`
(`none` when the body does not decode; only consulted for a 200 reply with
a non-empty body, mirroring the order of checks in `do`). -/
inductive WireResult where
  | transportErr : String → WireResult
  | reply : Int → String → Option Response → WireResult
deriving Repr

/-- Result of `Client.do` / `Client.doWithRetry`: a decoded envelope or an
error. -/
inductive DoResult where
  | err : String → DoResult
  | ok : Response → DoResult
deriving Repr

/-- Whether a `DoResult` is a decoded envelope. -/
def DoResult.isOk : DoResult → Bool
  | .err _ => false
  | .ok _ => true

/-- `Client.do` (client.go): send the request, fail on transport error,
fail on a non-200 status, fail on an empty body, then decode the body as a
`Response` envelope.  `url` is `req.URL`, used in the empty-body message. -/
def doCall (url : String) (w : WireResult) : DoResult :=
  match w with
  | .transportErr m => .err m
  | .reply status body parsed =>
    if status ≠ 200 then
      .err ("Unexpected status code[" ++ toString status ++ "] with body[" ++ body ++ "]")
    else if body.length = 0 then
      .err ("No body! Check URL: " ++ url)
    else
      match parsed with
      | none => .err "json unmarshal error"
      | some r => .ok r

/-- The condition tested by `Client.checkToken` (client.go):
`len(response.Errors) > 0 && (Errors[0].Code == "601" || Errors[0].Code == "602")`. -/
def firstErrIsAuth (r : Response) : Bool :=
  match r.errors with
  | [] => false
  | e :: _ => e.code == "601" || e.code == "602"

/-- Execution trace of one `doWithRetry` call: the returned value, the final
client state, the number of underlying resource-request sends (`do` calls),
the number of proactive (pre-send, expiry-triggered) refreshes, and the
number of reactive (soft-auth-error-triggered, via `checkToken`) refreshes. -/
structure ExecTrace where
  result : DoResult
  state : ClientState
  doCount : Nat
  preRefreshCount : Nat
  authRefreshCount : Nat
deriving Repr

/-- The client state after the proactive expiry check at the top of
`doWithRetry` (client.go): when the stored expiry is strictly before `now`
the token is refreshed — the refresh error being discarded, so on a failed
refresh the state is simply unchanged — and otherwise nothing happens. -/
def preState (now : Int) (st : ClientState) (preR : RefreshWire) : ClientState :=
  if st.tokenExpiresAt < now then (refreshToken now st preR).1 else st

/-- `Client.doWithRetry` (client.go): if the stored expiry is before `now`,
refresh first (ignoring the refresh error); send via `do`; on a transport /
HTTP / decode error return it; then `checkToken`: if the first envelope
error has code 601 or 602, refresh — a failed refresh is returned as the
call error with no resend — and on a successful refresh resend via `do`
exactly once, returning the second outcome as is.

The environment supplies the wire outcome of each send (`w1`, `w2` — `w2`
is consulted only if a retry happens) and of each refresh attempt (`preR`
for the proactive one, `authR` for the reactive one). -/
def doWithRetry (now : Int) (st : ClientState) (url : String)
    (preR authR : RefreshWire) (w1 w2 : WireResult) : ExecTrace :=
  let st1 := preState now st preR
  let preN : Nat := if st.tokenExpiresAt < now then 1 else 0
  match doCall url w1 with
  | .err m => ⟨.err m, st1, 1, preN, 0⟩
  | .ok resp =>
    if firstErrIsAuth resp then
      match refreshToken now st1 authR with
      | (_, .error m) => ⟨.err m, st1, 1, preN, 1⟩
      | (st2, .ok _) => ⟨doCall url w2, st2, 2, preN, 1⟩
    else
      ⟨.ok resp, st1, 1, preN, 0⟩


/-- `ResponseError` (error.go): a single response-level error; `Code` has Go
type `ErrCode` (an `int`), so in JSON it is a number. -/
structure ResponseError where
  code : Int
  message : String
deriving Repr, DecidableEq

/-- `ErrorResponse` (error.go): the payload of a Marketo error response. -/
structure ErrorResponse where
  requestId : String
  success : Bool
  errors : List ResponseError
deriving Repr, DecidableEq

/-- The `ErrCode` constants declared in error.go, in declaration order. -/
def errCodeVocabulary : List Int :=
  [502, 600, 601, 602, 603, 604, 605, 606, 607, 608, 609, 610, 611, 612,
   613, 614, 615, 616, 701, 702, 703, 704, 709, 710, 711, 712, 713, 714, 718]

/-- The identifier associated with each `ErrCode` constant in error.go
(the fixed human-readable name of the code); `none` for an integer with no
constant. -/
def errCodeName (c : Int) : Option String :=
  if c = 502 then some "ErrCodeBadGateway"
  else if c = 600 then some "ErrCodeEmptyAccessToken"
  else if c = 601 then some "ErrCodeAccessTokenInvalid"
  else if c = 602 then some "ErrCodeAccessTokenExpired"
  else if c = 603 then some "ErrCodeAccessDenied"
  else if c = 604 then some "ErrCodeRequestTimeOut"
  else if c = 605 then some "ErrCodeMethodUnsupported"
  else if c = 606 then some "ErrCodeRateLimitExceeded"
  else if c = 607 then some "ErrCodeDailyQuotaReached"
  else if c = 608 then some "ErrCodeTemporarilyUnavailable"
  else if c = 609 then some "ErrCodeInvalidJSON"
  else if c = 610 then some "ErrCodeNotFound"
  else if c = 611 then some "ErrCodeSystemError"
  else if c = 612 then some "ErrCodeInvalidContentType"
  else if c = 613 then some "ErrCodeInvalidMultipart"
  else if c = 614 then some "ErrCodeInvalidSubscription"
  else if c = 615 then some "ErrCodeConcurrentLimitReached"
  else if c = 616 then some "ErrCodeInvalidSubscriptionType"
  else if c = 701 then some "ErrCodeCannotBeBlank"
  else if c = 702 then some "ErrCodeNoDataFound"
  else if c = 703 then some "ErrCodeFeatureNotEnabled"
  else if c = 704 then some "ErrCodeInvalidDateFormat"
  else if c = 709 then some "ErrCodeBusinessRuleViolation"
  else if c = 710 then some "ErrCodeParentFolderNotFound"
  else if c = 711 then some "ErrCodeIncompatibleFolderType"
  else if c = 712 then some "ErrCodeMergeOperationInvalid"
  else if c = 713 then some "ErrCodeTransientError"
  else if c = 714 then some "ErrCodeUnableToFindDefaultRecordType"
  else if c = 718 then some "ErrCodeExternalSalesPersonIDNotFound"
  else none

/-- `json.Unmarshal` of a parsed JSON value into `ResponseError` (error.go):
an object assigns the "code" (number) and "message" (string) keys in order
(later duplicates overwrite), unknown keys are ignored, a missing key leaves
the zero value, a type mismatch fails; `null` leaves the zero value. -/
def unmarshalResponseError (j : Jx) : Option ResponseError :=
  match j with
  | .jnull => some ⟨0, ""⟩
  | .jobj fields =>
    fields.foldl
      (fun acc kv =>
        match acc with
        | none => none
        | some e =>
          if kv.1 = "code" then
            match kv.2 with
            | .jnum n => some { e with code := n }
            | _ => none
          else if kv.1 = "message" then
            match kv.2 with
            | .jstr s => some { e with message := s }
            | _ => none
          else some e)
      (some ⟨0, ""⟩)
  | _ => none

/-- `json.Unmarshal` of a JSON array into `[]ResponseError`: element-wise,
in order; `null` yields the nil slice. -/
def unmarshalResponseErrors (j : Jx) : Option (List ResponseError) :=
  match j with
  | .jnull => some []
  | .jarr xs =>
    xs.foldr
      (fun x acc =>
        match unmarshalResponseError x, acc with
        | some e, some es => some (e :: es)
        | _, _ => none)
      (some [])
  | _ => none

/-- `json.Unmarshal` of a parsed JSON value into `ErrorResponse` (error.go):
keys "requestId" (string), "success" (bool) and "errors" (array) assigned in
order; unknown keys ignored; missing keys left at zero values; type
mismatches fail; a top-level non-object (other than `null`) fails. -/
def unmarshalErrorResponse (j : Jx) : Option ErrorResponse :=
  match j with
  | .jnull => some ⟨"", false, []⟩
  | .jobj fields =>
    fields.foldl
      (fun acc kv =>
        match acc with
        | none => none
        | some e =>
          if kv.1 = "requestId" then
            match kv.2 with
            | .jstr s => some { e with requestId := s }
            | _ => none
          else if kv.1 = "success" then
            match kv.2 with
            | .jbool b => some { e with success := b }
            | _ => none
          else if kv.1 = "errors" then
            match unmarshalResponseErrors kv.2 with
            | some es => some { e with errors := es }
            | _ => none
          else some e)
      (some ⟨"", false, []⟩)
  | _ => none

/-- `Error` (error.go): the opaque error state returned from a Marketo
operation when no structured envelope is available. -/
structure HardError where
  message : String
  statusCode : Int
  body : String
deriving Repr, DecidableEq

/-- The value returned by `handleError` (error.go): either a structured
`ErrorResponse` or an opaque `Error`. -/
inductive HandleErrorResult where
  | structured : ErrorResponse → HandleErrorResult
  | fallback : HardError → HandleErrorResult
deriving Repr, DecidableEq

/-- Whether a `handleError` result is the structured variant. -/
def HandleErrorResult.isStructured : HandleErrorResult → Bool
  | .structured _ => true
  | .fallback _ => false

/-- `handleError` (error.go): read the body of a non-successful HTTP
response; attempt to `json.Unmarshal` it as an `ErrorResponse` and return
that on success; otherwise fall back to an opaque `Error` carrying
`"error: " + operation`, the raw body and the HTTP status code.
`parsedBody` is the text-level JSON parse of `body` (`none` when the body is
not valid JSON, in which case `json.Unmarshal` fails with a syntax error). -/
def handleError (operation : String) (status : Int) (body : String)
    (parsedBody : Option Jx) : HandleErrorResult :=
  match parsedBody.bind unmarshalErrorResponse with
  | some mktoErr => .structured mktoErr
  | none => .fallback ⟨"error: " ++ operation, status, body⟩


/-- `MaximumQueryBatchSize` (query.go): the largest requestable batch size. -/
def MaximumQueryBatchSize : Int := 300

/-- `Query` (query.go): parameters used when listing Marketo objects. -/
structure Query where
  filterField : String
  filterValues : List String
  fields : List String
  batchSize : Int
  nextPageToken : String
deriving Repr, DecidableEq

/-- `url.Values` (net/url) is a map from key to values; the code uses only
`Set`, which replaces the entries for a key with the single given value, so
the form is modelled as a finite map from key to at most one value, `none`
meaning the key is absent. -/
def UrlValues : Type := String → Option String

/-- The empty `url.Values{}`. -/
def vempty : UrlValues := fun _ => none

/-- `url.Values.Set` (net/url): replace the entries for `key` with the
single `value`. -/
def vset (key value : String) (vs : UrlValues) : UrlValues :=
  fun k => if k = key then some value else vs k

/-- `url.Values.Get` (net/url): the value stored for `key`, if any. -/
def vget (key : String) (vs : UrlValues) : Option String :=
  vs key

/-- `Query.Values` (query.go): default the batch size to the maximum when
unset, validate the filter-value count (1..300), then build the form:
`filterType`, `filterValues` (comma-joined), optional `fields`
(comma-joined), `batchSize`, and `nextPageToken` only when one was
supplied.  On a validation failure the (empty) values are discarded and an
error is returned. -/
def Query.Values (q : Query) : Except String UrlValues :=
  let q := if q.batchSize = 0 then { q with batchSize := MaximumQueryBatchSize } else q
  if q.filterValues.length < 1 then .error "too few values"
  else if (q.filterValues.length : Int) > MaximumQueryBatchSize then .error "too many values"
  else
    let values := vset "filterType" q.filterField vempty
    let values := vset "filterValues" (String.intercalate "," q.filterValues) values
    let values :=
      if q.fields.length > 0 then
        vset "fields" (String.intercalate "," q.fields) values
      else values
    let values := vset "batchSize" (toString q.batchSize) values
    let values :=
      if q.nextPageToken ≠ "" then vset "nextPageToken" q.nextPageToken values
      else values
    .ok values

/-- The request `LeadAPI.Filter` (lead.go) constructs once `Query.Values`
succeeds: POST to `rest/v1/leads.json?_method=GET` with the URL-encoded
form as the body.  `none` models the early return before `http.NewRequest`
when `Query.Values` fails: no request is constructed or sent. -/
def leadFilterRequest (q : Query) : Option (String × String × UrlValues) :=
  match q.Values with
  | .error _ => none
  | .ok vals => some ("POST", "rest/v1/leads.json?_method=GET", vals)

/-- `json.Unmarshal` of a raw `result` payload into
`[]map[string]interface{}` (lead.go, Filter): a `nil` raw message (absent
`result`) fails with "unexpected end of JSON input"; `null` leaves the nil
slice; an array must consist of objects; anything else is a type error.
Object values are kept as raw JSON values. -/
def unmarshalMapList (result : Option Jx) :
    Except String (List (List (String × Jx))) :=
  match result with
  | none => .error "unexpected end of JSON input"
  | some .jnull => .ok []
  | some (.jarr xs) =>
    xs.foldr
      (fun x acc =>
        match x, acc with
        | .jobj fields, .ok ms => .ok (fields :: ms)
        | _, _ => .error "json: cannot unmarshal value into []map[string]interface \x7b\x7d"
      )
      (.ok [])
  | some _ => .error "json: cannot unmarshal value into []map[string]interface \x7b\x7d"

/-- What `LeadAPI.Filter` (lead.go) produces for a 200 reply, as a function
of the envelope decode.  `softErr` is the structured soft-error outcome the
specification describes; it is part of the outcome vocabulary but note that
`Filter` itself has no branch constructing it.  In the `ok` outcome the
per-lead `mapstructure.Decode` step is modelled as the identity on the raw
maps (its field mapping is outside the scope of the claims). -/
inductive FilterOutcome where
  | softErr : List MErrorPair → FilterOutcome
  | decodeErr : String → FilterOutcome
  | ok : List (List (String × Jx)) → String → FilterOutcome
deriving Repr

/-- Whether a `FilterOutcome` is the structured soft-error variant. -/
def FilterOutcome.isSoftErr : FilterOutcome → Bool
  | .softErr _ => true
  | _ => false

/-- Whether a `FilterOutcome` is a decode error. -/
def FilterOutcome.isDecodeErr : FilterOutcome → Bool
  | .decodeErr _ => true
  | _ => false

/-- `LeadAPI.Filter` (lead.go), from the point where the reply status is
200: decode the body into the `Response` envelope (`parsed` is that decode,
`none` on malformed JSON); then — without consulting `success` or
`errors` — `json.Unmarshal` the raw `result` into `[]map[string]interface{}`
and return the leads with the envelope pagination token. -/
def leadFilterDecode (parsed : Option Response) : FilterOutcome :=
  match parsed with
  | none => .decodeErr "envelope decode error"
  | some response =>
    match unmarshalMapList response.result with
    | .error m => .decodeErr m
    | .ok raw => .ok raw response.nextPageToken

/-- Instrumentation for `LeadAPI.Filter` (lead.go): once the envelope
decodes, the `json.Unmarshal(response.Result, &raw)` call is reached
unconditionally — there is no `success` / `errors` check guarding it. -/
def leadFilterAttemptsResultDecode (parsed : Option Response) : Bool :=
  match parsed with
  | none => false
  | some _ => true


/-- The data one concurrent `RefreshToken` caller publishes (client.go,
lines under `authLock`): the decoded `AuthToken` and the expiry instant this
caller computed from its own clock read. -/
structure PubData where
  token : AuthToken
  expiry : Int
deriving Repr, DecidableEq

/-- The shared triple written by the publish section of `RefreshToken`,
for thread `t`: `c.auth = &auth; c.restRoundTripper.token =
auth.AccessToken; c.tokenExpiresAt = ...`. -/
def pubOf {n : Nat} (env : Fin n → PubData) (t : Fin n) : ClientState :=
  ⟨some (env t).token, (env t).token.accessToken, (env t).expiry⟩

/-- Global state of `n` concurrent refreshers: each thread runs the publish
section of `RefreshToken` — acquire `authLock`, write `auth`, write the
round-tripper token, write `tokenExpiresAt`, release — so `pc t` ranges
over 0 (before `Lock`), 1..3 (between the writes), 4 (before `Unlock`) and
5 (done).  `lock` is the holder of `authLock`, `shared` the client fields. -/
structure RefState (n : Nat) where
  pc : Fin n → Nat
  lock : Option (Fin n)
  shared : ClientState

/-- One interleaving step of the concurrent refreshers.  Only `acquire` is
guarded by the lock (as `sync.Mutex.Lock` blocks); the writes and the
release are guarded purely by each thread's control flow, exactly as in the
Go code, which never re-checks the lock before a write. -/
inductive RefStep {n : Nat} (env : Fin n → PubData) :
    RefState n → RefState n → Prop where
  | acquire (s s' : RefState n) (t : Fin n)
      (hpc : s.pc t = 0) (hl : s.lock = none)
      (hpc2 : s'.pc = Function.update s.pc t 1)
      (hl2 : s'.lock = some t) (hsh : s'.shared = s.shared) :
      RefStep env s s'
  | writeAuth (s s' : RefState n) (t : Fin n)
      (hpc : s.pc t = 1)
      (hpc2 : s'.pc = Function.update s.pc t 2)
      (hl2 : s'.lock = s.lock)
      (hsh : s'.shared = { s.shared with auth := some (env t).token }) :
      RefStep env s s'
  | writeTok (s s' : RefState n) (t : Fin n)
      (hpc : s.pc t = 2)
      (hpc2 : s'.pc = Function.update s.pc t 3)
      (hl2 : s'.lock = s.lock)
      (hsh : s'.shared = { s.shared with rtToken := (env t).token.accessToken }) :
      RefStep env s s'
  | writeExp (s s' : RefState n) (t : Fin n)
      (hpc : s.pc t = 3)
      (hpc2 : s'.pc = Function.update s.pc t 4)
      (hl2 : s'.lock = s.lock)
      (hsh : s'.shared = { s.shared with tokenExpiresAt := (env t).expiry }) :
      RefStep env s s'
  | release (s s' : RefState n) (t : Fin n)
      (hpc : s.pc t = 4)
      (hpc2 : s'.pc = Function.update s.pc t 5)
      (hl2 : s'.lock = none) (hsh : s'.shared = s.shared) :
      RefStep env s s'

/-- Initial state of the race: every thread about to call `Lock`, the lock
free, the client holding some pre-existing state `init`. -/
def refInit (n : Nat) (init : ClientState) : RefState n :=
  ⟨fun _ => 0, none, init⟩

/-- States reachable from the initial state by interleaving the refreshers. -/
inductive RefReach {n : Nat} (env : Fin n → PubData) (init : ClientState) :
    RefState n → Prop where
  | start : RefReach env init (refInit n init)
  | step (s s' : RefState n) :
      RefReach env init s → RefStep env s s' → RefReach env init s'

/-- Coherence: the shared triple is exactly the publish of one thread. -/
def coherentState {n : Nat} (env : Fin n → PubData) (sh : ClientState) : Prop :=
  ∃ t : Fin n, sh = pubOf env t

/-- The inductive invariant of the refresher race: program counters are in
range; a thread strictly inside the critical section holds the lock; a lock
holder is strictly inside the critical section; when the lock is free the
shared triple is either coherent or still untouched-by-anyone; and a lock
holder has performed exactly the writes its program counter records. -/
def RefInv {n : Nat} (env : Fin n → PubData) (init : ClientState)
    (s : RefState n) : Prop :=
  (∀ t, s.pc t ≤ 5)
  ∧ (∀ t, 1 ≤ s.pc t ∧ s.pc t ≤ 4 → s.lock = some t)
  ∧ (∀ t, s.lock = some t → 1 ≤ s.pc t ∧ s.pc t ≤ 4)
  ∧ (s.lock = none → coherentState env s.shared ∨ (s.shared = init ∧ ∀ t, s.pc t = 0))
  ∧ (∀ t, s.lock = some t →
      (s.pc t = 1 → coherentState env s.shared ∨ s.shared = init)
      ∧ (s.pc t = 2 → s.shared.auth = some (env t).token)
      ∧ (s.pc t = 3 → s.shared.auth = some (env t).token
          ∧ s.shared.rtToken = (env t).token.accessToken)
      ∧ (s.pc t = 4 → s.shared = pubOf env t))


/-- The invariant holds in the initial state. -/
theorem refInv_init {n : Nat} (env : Fin n → PubData) (init : ClientState) :
    RefInv env init (refInit n init) := by
  refine ⟨fun t => by simp [refInit], fun t ht => ?_, fun t ht => ?_, fun _ => ?_, fun t ht => ?_⟩
  · exact absurd ht.1 (by simp [refInit])
  · exact absurd ht (by simp [refInit])
  · exact Or.inr ⟨rfl, fun _ => rfl⟩
  · exact absurd ht (by simp [refInit])

/-- The invariant is preserved by every interleaving step. -/
theorem refInv_preserved {n : Nat} {env : Fin n → PubData} {init : ClientState}
    {s s' : RefState n} (hinv : RefInv env init s) (hstep : RefStep env s s') :
    RefInv env init s' := by
  obtain ⟨A, B, C, D, E⟩ := hinv
  cases hstep with
  | acquire t hpc hl hpc2 hl2 hsh =>
    refine ⟨fun u => ?_, fun u hu => ?_, fun u hu => ?_, fun hn => ?_, fun u hu => ?_⟩
    · rw [hpc2]
      by_cases h : u = t
      · subst h; simp
      · rw [Function.update_noteq h]; exact A u
    · rw [hl2]
      by_cases h : u = t
      · rw [h]
      · rw [hpc2, Function.update_noteq h] at hu
        exact absurd (B u hu) (by rw [hl]; simp)
    · rw [hl2] at hu
      injection hu with hu
      subst hu
      rw [hpc2, Function.update_same]
      exact ⟨le_refl 1, by omega⟩
    · rw [hl2] at hn; exact absurd hn (by simp)
    · rw [hl2] at hu
      injection hu with hu
      subst hu
      rw [hpc2, Function.update_same, hsh]
      refine ⟨fun _ => ?_, fun h => by omega, fun h => by omega, fun h => by omega⟩
      rcases D hl with hc | hi
      · exact Or.inl hc
      · exact Or.inr hi.1
  | writeAuth t hpc hpc2 hl2 hsh =>
    have hlt : s.lock = some t := B t ⟨by omega, by omega⟩
    refine ⟨fun u => ?_, fun u hu => ?_, fun u hu => ?_, fun hn => ?_, fun u hu => ?_⟩
    · rw [hpc2]
      by_cases h : u = t
      · subst h; simp
      · rw [Function.update_noteq h]; exact A u
    · rw [hl2]
      by_cases h : u = t
      · subst h; exact hlt
      · rw [hpc2, Function.update_noteq h] at hu
        exact B u hu
    · rw [hl2] at hu
      have : u = t := by
        rw [hlt] at hu; injection hu with hu; exact hu.symm
      subst this
      rw [hpc2, Function.update_same]
      omega
    · rw [hl2, hlt] at hn; exact absurd hn (by simp)
    · rw [hl2, hlt] at hu
      injection hu with hu
      subst hu
      rw [hpc2, Function.update_same, hsh]
      exact ⟨fun h => by omega, fun _ => rfl, fun h => by omega, fun h => by omega⟩
  | writeTok t hpc hpc2 hl2 hsh =>
    have hlt : s.lock = some t := B t ⟨by omega, by omega⟩
    have hE := E t hlt
    refine ⟨fun u => ?_, fun u hu => ?_, fun u hu => ?_, fun hn => ?_, fun u hu => ?_⟩
    · rw [hpc2]
      by_cases h : u = t
      · subst h; simp
      · rw [Function.update_noteq h]; exact A u
    · rw [hl2]
      by_cases h : u = t
      · subst h; exact hlt
      · rw [hpc2, Function.update_noteq h] at hu
        exact B u hu
    · rw [hl2] at hu
      have : u = t := by
        rw [hlt] at hu; injection hu with hu; exact hu.symm
      subst this
      rw [hpc2, Function.update_same]
      omega
    · rw [hl2, hlt] at hn; exact absurd hn (by simp)
    · rw [hl2, hlt] at hu
      injection hu with hu
      subst hu
      rw [hpc2, Function.update_same, hsh]
      refine ⟨fun h => by omega, fun h => by omega, fun _ => ⟨?_, rfl⟩, fun h => by omega⟩
      exact hE.2.1 hpc
  | writeExp t hpc hpc2 hl2 hsh =>
    have hlt : s.lock = some t := B t ⟨by omega, by omega⟩
    have hE := E t hlt
    refine ⟨fun u => ?_, fun u hu => ?_, fun u hu => ?_, fun hn => ?_, fun u hu => ?_⟩
    · rw [hpc2]
      by_cases h : u = t
      · subst h; simp
      · rw [Function.update_noteq h]; exact A u
    · rw [hl2]
      by_cases h : u = t
      · subst h; exact hlt
      · rw [hpc2, Function.update_noteq h] at hu
        exact B u hu
    · rw [hl2] at hu
      have : u = t := by
        rw [hlt] at hu; injection hu with hu; exact hu.symm
      subst this
      rw [hpc2, Function.update_same]
      omega
    · rw [hl2, hlt] at hn; exact absurd hn (by simp)
    · rw [hl2, hlt] at hu
      injection hu with hu
      subst hu
      rw [hpc2, Function.update_same, hsh]
      refine ⟨fun h => by omega, fun h => by omega, fun h => by omega, fun _ => ?_⟩
      obtain ⟨ha, hr⟩ := hE.2.2.1 hpc
      show (⟨s.shared.auth, s.shared.rtToken, (env t).expiry⟩ : ClientState) = pubOf env t
      rw [ha, hr]
      rfl
  | release t hpc hpc2 hl2 hsh =>
    have hlt : s.lock = some t := B t ⟨by omega, by omega⟩
    have hE := E t hlt
    refine ⟨fun u => ?_, fun u hu => ?_, fun u hu => ?_, fun hn => ?_, fun u hu => ?_⟩
    · rw [hpc2]
      by_cases h : u = t
      · subst h; simp
      · rw [Function.update_noteq h]; exact A u
    · by_cases h : u = t
      · subst h; rw [hpc2, Function.update_same] at hu; omega
      · rw [hpc2, Function.update_noteq h] at hu
        have := B u hu
        rw [hlt] at this
        injection this with this
        exact absurd this.symm h
    · rw [hl2] at hu; exact absurd hu (by simp)
    · rw [hsh]
      exact Or.inl ⟨t, hE.2.2.2 hpc⟩
    · rw [hl2] at hu; exact absurd hu (by simp)

/-- Every reachable state satisfies the invariant. -/
theorem refInv_reachable {n : Nat} {env : Fin n → PubData} {init : ClientState}
    {s : RefState n} (h : RefReach env init s) : RefInv env init s := by
  induction h with
  | start => exact refInv_init env init
  | step s s' _ hstep ih => exact refInv_preserved ih hstep


/-- `wrap64` is the identity on values that fit in a signed 64-bit word. -/
theorem wrap64_eq_self {x : Int} (hlo : -(2 ^ 63) ≤ x) (hhi : x < 2 ^ 63) :
    wrap64 x = x := by
  unfold wrap64
  rw [Int.emod_eq_of_lt (by omega) (by omega)]
  omega

/-- Looking up the key just set returns the value just set. -/
theorem vget_vset_same (k v : String) (vs : UrlValues) :
    vget k (vset k v vs) = some v := by
  simp [vget, vset]

/-- Setting one key does not affect lookups of a different key. -/
theorem vget_vset_other (k q v : String) (vs : UrlValues)
    (h : k ≠ q) : vget k (vset q v vs) = vget k vs := by
  simp [vget, vset, h]

/-- Updating a function on the one inhabitant of `Fin 1`. -/
theorem fin1_update (k v : Nat) :
    (fun _ : Fin 1 => v) = Function.update (fun _ : Fin 1 => k) 0 v := by
  funext u
  rw [Subsingleton.elim u 0, Function.update_same]

/-- C2: for every request and every behaviour of the transport and of the
identity endpoint, `doWithRetry` sends the underlying HTTP request at most
twice — the original send plus at most one retry — regardless of the error
codes carried by the responses. -/
theorem doWithRetry_sends_at_most_twice (now : Int) (st : ClientState)
    (url : String) (preR authR : RefreshWire) (w1 w2 : WireResult) :
    (doWithRetry now st url preR authR w1 w2).doCount ≤ 2 := by
  unfold doWithRetry
  cases doCall url w1 with
  | err m => simp
  | ok resp =>
    by_cases h : firstErrIsAuth resp
    · rcases hr : refreshToken now (preState now st preR) authR with ⟨st2, r2⟩
      cases r2 <;> simp [h, hr]
    · simp [h]

/-- C10: on the enveloped path, `do` rejects a 200 reply with an empty body
with an error naming the request URL, and never returns a decoded
`Response` for an empty body whatever the status. -/
theorem do_rejects_empty_body (url : String) (status : Int)
    (parsed : Option Response) :
    doCall url (.reply 200 "" parsed) = .err ("No body! Check URL: " ++ url)
    ∧ (doCall url (.reply status "" parsed)).isOk = false := by
  constructor
  · simp [doCall]
  · unfold doCall
    by_cases h : status = 200
    · simp [h, DoResult.isOk]
    · simp [h, DoResult.isOk]


/-- C4: if concurrent callers all trigger refreshes, then once all have
completed, the stored `auth` token, the bearer token installed in the REST
round-tripper, and the expiry instant are exactly the triple published by
one single refresh response — never an old token paired with a new expiry
or vice versa — because each refresher writes the three fields inside the
`authLock` critical section, so the writes of distinct refreshers never
interleave. -/
theorem refresh_race_single_coherent_token {n : Nat} (env : Fin n → PubData)
    (init : ClientState) (s : RefState n) (hr : RefReach env init s)
    (hterm : ∀ t, s.pc t = 5) (hn : 0 < n) :
    ∃ t : Fin n, s.shared = pubOf env t := by
  obtain ⟨A, B, C, D, E⟩ := refInv_reachable hr
  have hl : s.lock = none := by
    cases hlk : s.lock with
    | none => rfl
    | some t =>
      have h4 := (C t hlk).2
      rw [hterm t] at h4
      omega
  rcases D hl with hc | ⟨_, h0⟩
  · exact hc
  · have h5 := hterm ⟨0, hn⟩
    have hz := h0 ⟨0, hn⟩
    omega

/-- Witness for C4: a concrete completed execution with one refresher
publishing token "tokA" with expiry 99 over an initial empty client state
ends in a coherent state. -/
theorem refresh_race_single_coherent_token_witness :
    ∃ t : Fin 1,
      (⟨fun _ => 5, none,
        ⟨some ⟨"tokA", "bearer", 3600, "all"⟩, "tokA", 99⟩⟩ : RefState 1).shared
        = pubOf (fun _ => ⟨⟨"tokA", "bearer", 3600, "all"⟩, 99⟩) t := by
  have h01 : RefStep (n := 1) (fun _ => ⟨⟨"tokA", "bearer", 3600, "all"⟩, 99⟩)
      (refInit 1 ⟨none, "", 0⟩)
      ⟨fun _ => 1, some 0, ⟨none, "", 0⟩⟩ :=
    RefStep.acquire _ _ 0 rfl rfl (fin1_update 0 1) rfl rfl
  have h12 : RefStep (n := 1) (fun _ => ⟨⟨"tokA", "bearer", 3600, "all"⟩, 99⟩)
      ⟨fun _ => 1, some 0, ⟨none, "", 0⟩⟩
      ⟨fun _ => 2, some 0, ⟨some ⟨"tokA", "bearer", 3600, "all"⟩, "", 0⟩⟩ :=
    RefStep.writeAuth _ _ 0 rfl (fin1_update 1 2) rfl rfl
  have h23 : RefStep (n := 1) (fun _ => ⟨⟨"tokA", "bearer", 3600, "all"⟩, 99⟩)
      ⟨fun _ => 2, some 0, ⟨some ⟨"tokA", "bearer", 3600, "all"⟩, "", 0⟩⟩
      ⟨fun _ => 3, some 0, ⟨some ⟨"tokA", "bearer", 3600, "all"⟩, "tokA", 0⟩⟩ :=
    RefStep.writeTok _ _ 0 rfl (fin1_update 2 3) rfl rfl
  have h34 : RefStep (n := 1) (fun _ => ⟨⟨"tokA", "bearer", 3600, "all"⟩, 99⟩)
      ⟨fun _ => 3, some 0, ⟨some ⟨"tokA", "bearer", 3600, "all"⟩, "tokA", 0⟩⟩
      ⟨fun _ => 4, some 0, ⟨some ⟨"tokA", "bearer", 3600, "all"⟩, "tokA", 99⟩⟩ :=
    RefStep.writeExp _ _ 0 rfl (fin1_update 3 4) rfl rfl
  have h45 : RefStep (n := 1) (fun _ => ⟨⟨"tokA", "bearer", 3600, "all"⟩, 99⟩)
      ⟨fun _ => 4, some 0, ⟨some ⟨"tokA", "bearer", 3600, "all"⟩, "tokA", 99⟩⟩
      ⟨fun _ => 5, none, ⟨some ⟨"tokA", "bearer", 3600, "all"⟩, "tokA", 99⟩⟩ :=
    RefStep.release _ _ 0 rfl (fin1_update 4 5) rfl rfl
  exact refresh_race_single_coherent_token _ ⟨none, "", 0⟩ _
    (RefReach.step _ _
      (RefReach.step _ _
        (RefReach.step _ _
          (RefReach.step _ _ (RefReach.step _ _ RefReach.start h01) h12)
          h23)
        h34)
      h45)
    (fun _ => rfl) Nat.one_pos


/-- C1 (amended): retry is keyed to the first error of the envelope.  If
`do` yields a decoded 200 envelope whose FIRST error has code 601 or 602,
the executor refreshes once; when that refresh succeeds the request is
reissued exactly once and the second outcome is returned as is (a second
soft auth error included — it is never retried again); when the refresh
fails, its error is returned and the request is not reissued.  If the first
error has any other code (even when a 601/602 appears later in the list),
no reactive refresh and no retry happen and the envelope is returned. -/
theorem doWithRetry_soft_auth_retry (now : Int) (st : ClientState)
    (url : String) (preR authR : RefreshWire) (w1 w2 : WireResult)
    (resp : Response) (h1 : doCall url w1 = .ok resp) :
    (firstErrIsAuth resp = true →
      (∀ a, (refreshToken now (preState now st preR) authR).2 = .ok a →
        (doWithRetry now st url preR authR w1 w2).doCount = 2
        ∧ (doWithRetry now st url preR authR w1 w2).authRefreshCount = 1
        ∧ (doWithRetry now st url preR authR w1 w2).result = doCall url w2)
      ∧ (∀ m, (refreshToken now (preState now st preR) authR).2 = .error m →
        (doWithRetry now st url preR authR w1 w2).doCount = 1
        ∧ (doWithRetry now st url preR authR w1 w2).authRefreshCount = 1
        ∧ (doWithRetry now st url preR authR w1 w2).result = .err m))
  ∧ (firstErrIsAuth resp = false →
      (doWithRetry now st url preR authR w1 w2).doCount = 1
      ∧ (doWithRetry now st url preR authR w1 w2).authRefreshCount = 0
      ∧ (doWithRetry now st url preR authR w1 w2).result = .ok resp) := by
  rcases hre : refreshToken now (preState now st preR) authR with ⟨st2, r2⟩
  constructor
  · intro hauth
    constructor
    · intro a ha
      cases r2 with
      | error m => exact absurd ha (by simp)
      | ok a0 => simp [doWithRetry, h1, hauth, hre]
    · intro m hm
      cases r2 with
      | ok a0 => exact absurd hm (by simp)
      | error m0 =>
        injection hm with hmm
        subst hmm
        simp [doWithRetry, h1, hauth, hre]
  · intro hnoauth
    simp [doWithRetry, h1, hnoauth]

/-- C1 counterexample: a decoded 200 envelope that does carry a soft error
with code "601" — in second position, behind a "606" — triggers no refresh
and no retry, because `checkToken` inspects only `Errors[0]`. -/
theorem doWithRetry_soft_auth_not_first_cex :
    ((⟨"r1", false, "", false,
        [⟨"606", "Max rate limit exceeded"⟩, ⟨"601", "Access token invalid"⟩],
        none, []⟩ : Response).errors.any (fun e => e.code == "601")) = true
    ∧ (doWithRetry 0 ⟨none, "tok", 100⟩ "u" (.transportErr "unused")
        (.transportErr "unused")
        (.reply 200 "body" (some ⟨"r1", false, "", false,
          [⟨"606", "Max rate limit exceeded"⟩, ⟨"601", "Access token invalid"⟩],
          none, []⟩))
        (.reply 200 "body" none)).doCount = 1
    ∧ (doWithRetry 0 ⟨none, "tok", 100⟩ "u" (.transportErr "unused")
        (.transportErr "unused")
        (.reply 200 "body" (some ⟨"r1", false, "", false,
          [⟨"606", "Max rate limit exceeded"⟩, ⟨"601", "Access token invalid"⟩],
          none, []⟩))
        (.reply 200 "body" none)).authRefreshCount = 0 :=
  ⟨rfl, rfl, rfl⟩

/-- Witness for C1: a fresh client receiving an envelope whose first error
is "601", with a successful reactive refresh, sends exactly twice and
returns the second outcome. -/
theorem doWithRetry_soft_auth_retry_witness :
    (doWithRetry 0 ⟨none, "tok", 100⟩ "u" (.transportErr "unused")
      (.reply 200 "authbody" (some ⟨"tokB", "bearer", 3600, "all"⟩))
      (.reply 200 "b1" (some ⟨"r1", false, "", false,
        [⟨"601", "Access token invalid"⟩], none, []⟩))
      (.reply 200 "b2" (some ⟨"r2", true, "", false, [], none, []⟩))).doCount = 2
    ∧ (doWithRetry 0 ⟨none, "tok", 100⟩ "u" (.transportErr "unused")
      (.reply 200 "authbody" (some ⟨"tokB", "bearer", 3600, "all"⟩))
      (.reply 200 "b1" (some ⟨"r1", false, "", false,
        [⟨"601", "Access token invalid"⟩], none, []⟩))
      (.reply 200 "b2" (some ⟨"r2", true, "", false, [], none, []⟩))).authRefreshCount = 1 := by
  have h := (doWithRetry_soft_auth_retry 0 ⟨none, "tok", 100⟩ "u"
      (.transportErr "unused")
      (.reply 200 "authbody" (some ⟨"tokB", "bearer", 3600, "all"⟩))
      (.reply 200 "b1" (some ⟨"r1", false, "", false,
        [⟨"601", "Access token invalid"⟩], none, []⟩))
      (.reply 200 "b2" (some ⟨"r2", true, "", false, [], none, []⟩))
      ⟨"r1", false, "", false, [⟨"601", "Access token invalid"⟩], none, []⟩
      rfl).1 rfl
  have h2 := h.1 ⟨"tokB", "bearer", 3600, "all"⟩ rfl
  exact ⟨h2.1, h2.2.1⟩


/-- The proactive-refresh count of a `doWithRetry` trace records exactly
whether the stored expiry had passed. -/
theorem doWithRetry_preRefreshCount (now : Int) (st : ClientState)
    (url : String) (preR authR : RefreshWire) (w1 w2 : WireResult) :
    (doWithRetry now st url preR authR w1 w2).preRefreshCount
      = if st.tokenExpiresAt < now then 1 else 0 := by
  unfold doWithRetry
  cases doCall url w1 with
  | err m => simp
  | ok resp =>
    by_cases h : firstErrIsAuth resp
    · rcases hr : refreshToken now (preState now st preR) authR with ⟨st2, r2⟩
      cases r2 <;> simp [h, hr]
    · simp [h]

/-- C3 (amended): a successful refresh whose response carries
`expires_in = N`, received at local time `now`, stores expiry `now + N`
seconds whenever `N * 10^9` fits in a signed 64-bit duration (the Go
`time.Duration(N) * time.Second` multiplication wraps at 64 bits, so for
larger `N` the stored expiry differs); and a request issued through
`doWithRetry` when the stored expiry has passed triggers exactly one
proactive refresh before the request is sent — and none otherwise. -/
theorem refresh_expiry_and_proactive_refresh
    (now now2 : Int) (st st2 : ClientState) (body url : String)
    (a : AuthToken) (preR authR : RefreshWire) (w1 w2 : WireResult) :
    (-(2 ^ 63) ≤ a.expiresIn * 1000000000 →
      a.expiresIn * 1000000000 < 2 ^ 63 →
      (refreshToken now st (.reply 200 body (some a))).1.tokenExpiresAt
        = now + a.expiresIn * 1000000000
      ∧ (refreshToken now st (.reply 200 body (some a))).2 = .ok a)
  ∧ (st2.tokenExpiresAt < now2 →
      (doWithRetry now2 st2 url preR authR w1 w2).preRefreshCount = 1)
  ∧ (¬ st2.tokenExpiresAt < now2 →
      (doWithRetry now2 st2 url preR authR w1 w2).preRefreshCount = 0) := by
  refine ⟨fun hlo hhi => ?_, fun h => ?_, fun h => ?_⟩
  · simp [refreshToken, expiresInDuration, wrap64_eq_self hlo hhi]
  · simp [doWithRetry_preRefreshCount, h]
  · simp [doWithRetry_preRefreshCount, h]

/-- C3 counterexample: for `expires_in = 10^10` (whose nanosecond duration
overflows int64) the stored expiry is not `now + N` seconds. -/
theorem refresh_expiry_overflow_cex :
    (refreshToken 0 ⟨none, "", 0⟩
        (.reply 200 "authbody"
          (some ⟨"t", "bearer", 10000000000, "s"⟩))).1.tokenExpiresAt
      ≠ 0 + 10000000000 * 1000000000 := by decide

/-- Witness for C3: a refresh with `expires_in = 3600` received at time 50
stores expiry `50 + 3600` seconds, and a request on a client whose token
expired at 0, issued at time 5, performs exactly one proactive refresh. -/
theorem refresh_expiry_and_proactive_refresh_witness :
    (refreshToken 50 ⟨none, "", 0⟩
        (.reply 200 "b" (some ⟨"t", "bearer", 3600, "s"⟩))).1.tokenExpiresAt
      = 50 + 3600 * 1000000000
    ∧ (doWithRetry 5 ⟨none, "tok", 0⟩ "u" (.transportErr "x")
        (.transportErr "x") (.transportErr "fail")
        (.transportErr "fail")).preRefreshCount = 1 := by
  have h := refresh_expiry_and_proactive_refresh 50 5 ⟨none, "", 0⟩
    ⟨none, "tok", 0⟩ "b" "u" ⟨"t", "bearer", 3600, "s"⟩
    (.transportErr "x") (.transportErr "x") (.transportErr "fail")
    (.transportErr "fail")
  exact ⟨(h.1 (by norm_num) (by norm_num)).1, h.2.1 (by norm_num)⟩


/-- C5: for a non-200 response, `handleError` returns the structured
`ErrorResponse` — the decoded envelope itself, with its error pairs in body
order — exactly when the body unmarshals as one; when the body is not valid
JSON, or is JSON that does not unmarshal into `ErrorResponse`, it returns
the opaque `Error` carrying the operation name, the raw body and the HTTP
status code. -/
theorem handleError_classification (operation : String) (status : Int)
    (body : String) :
    (∀ j e, unmarshalErrorResponse j = some e →
        handleError operation status body (some j) = .structured e)
    ∧ (∀ j, unmarshalErrorResponse j = none →
        handleError operation status body (some j)
          = .fallback ⟨"error: " ++ operation, status, body⟩)
    ∧ handleError operation status body none
        = .fallback ⟨"error: " ++ operation, status, body⟩ := by
  refine ⟨fun j e h => ?_, fun j h => ?_, ?_⟩
  · simp [handleError, h]
  · simp [handleError, h]
  · simp [handleError]

/-- Witness for C5: a 404 with the non-JSON body "404 page not found"
yields the opaque error with status 404 and the raw body — no decode crash
— and a JSON error body yields the structured response with its two error
pairs in order. -/
theorem handleError_classification_witness :
    handleError "describe custom object" 404 "404 page not found" none
      = .fallback ⟨"error: describe custom object", 404, "404 page not found"⟩
    ∧ handleError "filter leads" 400 "errbody"
        (some (.jobj [("requestId", .jstr "r1"), ("success", .jbool false),
          ("errors", .jarr
            [.jobj [("code", .jnum 610), ("message", .jstr "Not Found")],
             .jobj [("code", .jnum 611), ("message", .jstr "System error")]])]))
      = .structured ⟨"r1", false, [⟨610, "Not Found"⟩, ⟨611, "System error"⟩]⟩ :=
  ⟨(handleError_classification "describe custom object" 404 "404 page not found").2.2,
   (handleError_classification "filter leads" 400 "errbody").1 _
     ⟨"r1", false, [⟨610, "Not Found"⟩, ⟨611, "System error"⟩]⟩ rfl⟩

/-- C6 (amended): the error-code vocabulary declared in error.go is a
closed set that includes 601 (invalid token), 602 (expired token), 606
(rate limited) and 610 (not found), each associated with a fixed
identifier; it does NOT contain 1016, and no message table is present —
the fixed association is the constant name only. -/
theorem errCode_vocabulary : ((601 : Int) ∈ errCodeVocabulary
      ∧ (602 : Int) ∈ errCodeVocabulary
      ∧ (606 : Int) ∈ errCodeVocabulary
      ∧ (610 : Int) ∈ errCodeVocabulary)
    ∧ (1016 : Int) ∉ errCodeVocabulary
    ∧ errCodeVocabulary.all (fun c => (errCodeName c).isSome) = true
    ∧ errCodeName 601 = some "ErrCodeAccessTokenInvalid"
    ∧ errCodeName 602 = some "ErrCodeAccessTokenExpired"
    ∧ errCodeName 606 = some "ErrCodeRateLimitExceeded"
    ∧ errCodeName 610 = some "ErrCodeNotFound" := by
  decide

/-- C6 counterexample: 1016 ("too many imports") is not in the vocabulary
declared by the code. -/
theorem errCode_vocabulary_cex : (1016 : Int) ∉ errCodeVocabulary := by
  decide

/-- C7 (amended): on a 200 reply whose envelope decodes with an absent
`result` — as in a soft-error envelope — `Filter` does NOT surface a
structured soft error: it ignores `success` and `errors`, unconditionally
attempts to unmarshal the absent `result`, and returns the resulting JSON
decode error. -/
theorem filter_absent_result_decode_error (r : Response)
    (hres : r.result = none) :
    leadFilterDecode (some r) = .decodeErr "unexpected end of JSON input"
    ∧ (leadFilterDecode (some r)).isSoftErr = false
    ∧ leadFilterAttemptsResultDecode (some r) = true := by
  refine ⟨?_, ?_, rfl⟩
  · simp [leadFilterDecode, unmarshalMapList, hres]
  · simp [leadFilterDecode, unmarshalMapList, hres, FilterOutcome.isSoftErr]

/-- C7 counterexample: the exact scenario of the claim — a 200 envelope
with `success=false` and errors `[(610, Not Found)]` — produces no
`SoftError` (its reasons, 610 included, are discarded), and the decode of
`result` IS attempted. -/
theorem filter_610_no_soft_error_cex :
    (leadFilterDecode (some ⟨"r1", false, "", false,
        [⟨"610", "Not Found"⟩], none, []⟩)).isSoftErr = false
    ∧ leadFilterAttemptsResultDecode (some ⟨"r1", false, "", false,
        [⟨"610", "Not Found"⟩], none, []⟩) = true :=
  ⟨rfl, rfl⟩

/-- Witness for C7: the 610 soft-error envelope yields the JSON decode
error, not a soft error. -/
theorem filter_absent_result_decode_error_witness :
    leadFilterDecode (some ⟨"r1", false, "", false,
        [⟨"610", "Not Found"⟩], none, []⟩)
      = .decodeErr "unexpected end of JSON input"
    ∧ (leadFilterDecode (some ⟨"r1", false, "", false,
        [⟨"610", "Not Found"⟩], none, []⟩)).isSoftErr = false
    ∧ leadFilterAttemptsResultDecode (some ⟨"r1", false, "", false,
        [⟨"610", "Not Found"⟩], none, []⟩) = true :=
  filter_absent_result_decode_error
    ⟨"r1", false, "", false, [⟨"610", "Not Found"⟩], none, []⟩ rfl


/-- C8: a `Query` with no filter values, or with more than 300, fails
validation in `Values` and the `Filter` pipeline constructs no request —
the failure happens before `http.NewRequest` and before any send. -/
theorem query_values_bounds (q : Query)
    (h : q.filterValues.length = 0 ∨ 300 < q.filterValues.length) :
    (∃ m, q.Values = .error m) ∧ leadFilterRequest q = none := by
  have hv : ∃ m, q.Values = .error m := by
    rcases h with h0 | h300
    · refine ⟨"too few values", ?_⟩
      unfold Query.Values
      by_cases hb : q.batchSize = 0 <;> simp [hb, h0]
    · refine ⟨"too many values", ?_⟩
      unfold Query.Values
      have hn1 : ¬ q.filterValues.length < 1 := by omega
      have hn2 : (300 : Int) < (q.filterValues.length : Int) := by
        exact_mod_cast h300
      by_cases hb : q.batchSize = 0 <;>
        simp [hb, hn1, MaximumQueryBatchSize, hn2]
  obtain ⟨m, hm⟩ := hv
  refine ⟨⟨m, hm⟩, ?_⟩
  unfold leadFilterRequest
  rw [hm]

/-- Witness for C8: the empty-filter query fails validation and builds no
request. -/
theorem query_values_bounds_witness :
    (∃ m, Query.Values ⟨"email", [], [], 0, ""⟩ = .error m)
    ∧ leadFilterRequest ⟨"email", [], [], 0, ""⟩ = none :=
  query_values_bounds ⟨"email", [], [], 0, ""⟩ (Or.inl rfl)

/-- The empty form has no entries. -/
theorem vget_vempty (k : String) : vget k vempty = none := rfl

/-- Rendering of the default batch size. -/
theorem toString_300 : toString (300 : Int) = "300" := rfl

/-- C9: a valid `Query` (1..300 filter values) with the batch size unset
produces form values with `batchSize = "300"`; `nextPageToken` is absent
when no pagination token was supplied and is forwarded verbatim when one
was. -/
theorem query_values_default_batch (q : Query) (hb : q.batchSize = 0)
    (hlo : 1 ≤ q.filterValues.length) (hhi : q.filterValues.length ≤ 300) :
    q.Values.map (vget "batchSize") = .ok (some "300")
    ∧ (q.nextPageToken = "" →
        q.Values.map (vget "nextPageToken") = .ok none)
    ∧ (q.nextPageToken ≠ "" →
        q.Values.map (vget "nextPageToken") = .ok (some q.nextPageToken)) := by
  have hn1 : ¬ q.filterValues.length < 1 := by omega
  have hn2 : ¬ ((q.filterValues.length : Int) > (300 : Int)) := by
    simp only [gt_iff_lt, not_lt]
    omega
  refine ⟨?_, fun hnp => ?_, fun hnp => ?_⟩
  · by_cases hnp : q.nextPageToken = "" <;>
      by_cases hf : q.fields.length > 0 <;>
      simp [Query.Values, hb, hn1, hn2, hnp, hf, MaximumQueryBatchSize,
        Except.map, toString_300, vget_vempty, vget_vset_same,
        vget_vset_other]
  · by_cases hf : q.fields.length > 0 <;>
      simp [Query.Values, hb, hn1, hn2, hnp, hf, MaximumQueryBatchSize,
        Except.map, toString_300, vget_vempty, vget_vset_same,
        vget_vset_other]
  · by_cases hf : q.fields.length > 0 <;>
      simp [Query.Values, hb, hn1, hn2, hnp, hf, MaximumQueryBatchSize,
        Except.map, toString_300, vget_vempty, vget_vset_same,
        vget_vset_other]

/-- Witness for C9: a two-value email query with no batch size and no page
token gets `batchSize = "300"` and no `nextPageToken` entry. -/
theorem query_values_default_batch_witness :
    (Query.Values ⟨"email", ["a@x.com", "b@x.com"], ["company"], 0, ""⟩).map
        (vget "batchSize") = .ok (some "300")
    ∧ (("" : String) = "" →
        (Query.Values ⟨"email", ["a@x.com", "b@x.com"], ["company"], 0, ""⟩).map
          (vget "nextPageToken") = .ok none)
    ∧ (("" : String) ≠ "" →
        (Query.Values ⟨"email", ["a@x.com", "b@x.com"], ["company"], 0, ""⟩).map
          (vget "nextPageToken") = .ok (some "")) :=
  query_values_default_batch ⟨"email", ["a@x.com", "b@x.com"], ["company"], 0, ""⟩
    rfl (by decide) (by decide)

end Marketo
